import Mathlib

/-!
# Verification of the Linglitter PDF-acquisition pipeline

A shallow embedding of the acquisition scripts (`scrape_pdfs.py`,
`scrape_repo.py`, `scrape_openlibhum.py`, `scrape_dois.py`) of the
Linglitter repository, together with proofs of the specified properties.

Network I/O is modelled by oracles: an HTTP response is either `none`
(request exception, no response received) or a value carrying the status
code, headers and body observed by the Python code.  Machine-level side
effects (file writes, SQLite updates) are modelled as explicit return
values.  All definitions are translated from the Python source.
-/

namespace Linglitter

/-- Substring test, modelling the Python `needle in haystack` on strings
(here on exploded character lists). -/
def containsSub (needle : List Char) : List Char → Bool
  | [] => needle.isEmpty
  | c :: rest => List.isPrefixOf needle (c :: rest) || containsSub needle rest

/-- Lower-case a Python string, modelling `str.lower()`. -/
def lowerStr (s : String) : List Char := s.data.map Char.toLower

/-- An HTTP response as seen by the `requests` library: status code,
`Content-Type` header and the streamed body (a list of bytes). -/
structure HttpResp where
  status : Int
  contentType : String
  body : List Nat
deriving DecidableEq, Repr

/-- Outcome of a download attempt: the `(success, http_status_code)`
return value of the Python function, plus the file left on disk
(`none` when no file persists). -/
structure DlResult where
  success : Bool
  code : Int
  file : Option (List Nat)
deriving DecidableEq, Repr

/-- The PDF magic bytes `b"%PDF-"`. -/
def pdfMagic : List Nat := [37, 80, 68, 70, 45]

/-- Model of `download_pdf` from `scrape_pdfs.py` (lines 301-380); the identical
verification logic also appears as `download_pdf_direct` in
`scrape_repo.py` (lines 247-304) and `download_pdf` in
`scrape_openlibhum.py`.  The argument is the response to the PDF GET:
`none` models a `RequestException` (no response received).

Checks in source order: non-200 status; `"html" in content_type.lower()`;
written size `< 1000` (file unlinked); first five bytes `!= b"%PDF-"`
(file unlinked). -/
def download_pdf : Option HttpResp → DlResult
  | none => ⟨false, 0, none⟩
  | some r =>
    if r.status ≠ 200 then ⟨false, r.status, none⟩
    else if containsSub "html".data (lowerStr r.contentType) then ⟨false, 403, none⟩
    else if r.body.length < 1000 then ⟨false, r.status, none⟩
    else if r.body.take 5 ≠ pdfMagic then ⟨false, 403, none⟩
    else ⟨true, r.status, some r.body⟩

/-- Model of `download_pdf_direct` from `scrape_repo.py` (lines 247-304): the
verification pipeline is byte-for-byte the same as `download_pdf` of
`scrape_pdfs.py` (only headers/referer handling, which are outside the
verification contract, differ). -/
def download_pdf_direct : Option HttpResp → DlResult := download_pdf

/-- The response declares an HTML content type. -/
def isHtmlType (r : HttpResp) : Bool := containsSub "html".data (lowerStr r.contentType)

/-- A 200 response with PDF content type whose body is exactly 1000
bytes and starts with the PDF signature. -/
def respAtFloor : HttpResp :=
  ⟨200, "application/pdf", pdfMagic ++ List.replicate 995 0⟩

/-!
## Politeness Governor (`scrape_pdfs.py`, lines 135-210)

The DB-derived timestamps are modelled directly: `lastGlobal` is
`MAX(timestamp)` over all articles, `lastPub` records, newest first,
the per-publisher attempt timestamps, so its first hit for a publisher
is that publisher `MAX(timestamp)` (these coincide because every
recorded timestamp is taken from a monotone clock).  Times are integers
(seconds); the `None` case of `parse_timestamp` is the `none` of the
`Option`s below.
-/

/-- Timestamp state read by `check_politeness`: the global and
per-publisher `MAX(timestamp)` values. -/
structure PoliteDB where
  lastGlobal : Option Int
  lastPub : List (String × Int)
deriving DecidableEq, Repr

/-- Model of `get_last_publisher_timestamp`: most recent attempt timestamp for a
publisher (newest entries are prepended, so the first hit is the max). -/
def lookupPub : List (String × Int) → String → Option Int
  | [], _ => none
  | (q, t) :: rest, p => if q = p then some t else lookupPub rest p

/-- The per-publisher half of `check_politeness` (lines 201-208). -/
def check_pub (db : PoliteDB) (publisher : String) (publisher_interval : Int)
    (now : Int) : Bool × Int :=
  match lookupPub db.lastPub publisher with
  | some last_dt =>
    if now - last_dt < publisher_interval then
      (false, publisher_interval - (now - last_dt))
    else (true, 0)
  | none => (true, 0)

/-- Model of `check_politeness` from `scrape_pdfs.py` (lines 184-210): returns
`(ok, wait_seconds)`. -/
def check_politeness (db : PoliteDB) (publisher : String)
    (global_interval publisher_interval : Int) (now : Int) : Bool × Int :=
  match db.lastGlobal with
  | some last_dt =>
    if now - last_dt < global_interval then
      (false, global_interval - (now - last_dt))
    else check_pub db publisher publisher_interval now
  | none => check_pub db publisher publisher_interval now

/-- Effect of `update_article` on the politeness state: the processed
article `timestamp` is set to `now`, so both the global and the
publisher `MAX(timestamp)` become `now` (lines 437, 443-503). -/
def recordAttempt (db : PoliteDB) (publisher : String) (now : Int) : PoliteDB :=
  { lastGlobal := some now, lastPub := (publisher, now) :: db.lastPub }

/-- The scheduling loop of `main`/`process_one` restricted to the
politeness gate (lines 419-427, 566-593): each candidate event
`(now, publisher)` is attempted iff `check_politeness` allows it, and an
attempt records its timestamp.  Returns the performed attempts. -/
def govRun (global_interval publisher_interval : Int) :
    PoliteDB → List (Int × String) → List (Int × String)
  | _, [] => []
  | db, (now, pub) :: rest =>
    if (check_politeness db pub global_interval publisher_interval now).1 then
      (now, pub) :: govRun global_interval publisher_interval
        (recordAttempt db pub now) rest
    else govRun global_interval publisher_interval db rest

/-!
## Open-access adapter (`scrape_pdfs.py`)

`query_unpaywall` is modelled as a function of the HTTP response from
the Unpaywall API (`none` = `RequestException`); its JSON payload is the
structure `UnpaywallJson`.  `process_one` is modelled as a function of
the stored `attempts` of the selected candidate, the politeness-gate verdict,
and the network oracles; its SQLite UPDATE is the returned
`Option Article` (`none` = no mutation), and the file persisted on disk
is the third component.
-/

/-- The acquisition fields of an `articles` row written by
`update_article`. -/
structure Article where
  availability : Option String
  source : Option String
  attempts : Nat
  response : Int
  timestamp : Option String
  file : Option String
deriving DecidableEq, Repr

/-- One entry of `best_oa_location` / `oa_locations` in the Unpaywall
JSON payload. -/
structure OaLocation where
  url_for_pdf : Option String
  url_for_landing_page : Option String
  url : Option String
deriving DecidableEq, Repr

/-- The fields of the Unpaywall JSON payload read by `query_unpaywall`. -/
structure UnpaywallJson where
  is_oa : Bool
  best_oa_location : Option OaLocation
  oa_locations : List OaLocation
deriving DecidableEq, Repr

/-- The dict returned by `query_unpaywall`. -/
structure UnpaywallResult where
  is_oa : Bool
  pdf_url : Option String
  landing_url : Option String
  response_code : Int
deriving DecidableEq, Repr

/-- the Python `a or b` on two optional strings (`None` is falsy). -/
def orOpt (a b : Option String) : Option String :=
  match a with
  | some x => some x
  | none => b

/-- The fallback loop over `oa_locations` (lines 258-263): each
iteration overwrites `pdf_url` and `landing_url`, breaking once
`pdf_url` is truthy. -/
def scanLocations : List OaLocation → Option String × Option String →
    Option String × Option String
  | [], acc => acc
  | loc :: rest, _ =>
    match loc.url_for_pdf with
    | some u => (some u, orOpt loc.url_for_landing_page loc.url)
    | none => scanLocations rest (none, orOpt loc.url_for_landing_page loc.url)

/-- `query_unpaywall` of `scrape_pdfs.py` (lines 217-269), as a function
of the configured `mailto` and the API response (`none` =
`RequestException`). -/
def query_unpaywall (mailto : Option String)
    (resp : Option (Int × UnpaywallJson)) : UnpaywallResult :=
  match mailto with
  | none => ⟨false, none, none, 0⟩
  | some _ =>
    match resp with
    | none => ⟨false, none, none, 0⟩
    | some (code, data) =>
      if code = 404 then ⟨false, none, none, code⟩
      else if code ≠ 200 then ⟨false, none, none, code⟩
      else if data.is_oa then
        let best :=
          match data.best_oa_location with
          | some b => (b.url_for_pdf, orOpt b.url_for_landing_page b.url)
          | none => (none, none)
        let found :=
          match best.1 with
          | some _ => best
          | none => scanLocations data.oa_locations best
        ⟨true, found.1, found.2, code⟩
      else ⟨false, none, none, code⟩

/-- Outcome of one `process_one` call in `scrape_pdfs.py` (lines
387-504): the returned status string, the article UPDATE performed
(`none` = no mutation), and the verified file persisted on disk. -/
def process_one (cand : Option Nat) (max_attempts : Nat) (politeOk : Bool)
    (dry_run : Bool) (mailto : Option String)
    (uwResp : Option (Int × UnpaywallJson)) (dlResp : Option HttpResp)
    (now : String) (rel_path : String) :
    String × Option Article × Option (List Nat) :=
  match cand with
  | none => ("none", none, none)
  | some attempts =>
    if max_attempts ≤ attempts then ("exhausted", none, none)
    else if ¬ politeOk then ("skipped", none, none)
    else if dry_run then ("skipped", none, none)
    else
      let result := query_unpaywall mailto uwResp
      if ¬ result.is_oa then
        ("no-oa", some ⟨some "no-oa", none, attempts + 1, result.response_code,
          some now, none⟩, none)
      else
        match result.pdf_url with
        | none =>
          ("failed", some ⟨some "oa", none, attempts + 1, result.response_code,
            some now, none⟩, none)
        | some pdf_url =>
          let d := download_pdf dlResp
          if d.success then
            ("downloaded", some ⟨some "oa", some pdf_url, attempts + 1, d.code,
              some now, some rel_path⟩, d.file)
          else
            ("failed", some ⟨some "oa", some pdf_url, attempts + 1, d.code,
              some now, none⟩, none)

/-!
## Repository adapter: HTML scanning (`scrape_repo.py`, lines 193-216)

`extract_download_link` uses two `re` patterns.  They are embedded here
as a small backtracking matcher whose items are exactly the pattern
atoms Python compiles for them: case-insensitive literals,
single-character classes (possibly negated), `.` under `DOTALL`, greedy
and lazy stars over such atoms, the word boundary `\b`, and one capture
group.  The matcher searches left to right (`re.search` semantics) and
backtracks greedily/lazily exactly as the Python engine does for these
patterns.
-/

/-- A single-character matcher: a (lower-cased) literal under
`re.IGNORECASE`, a character class, or `.` under `re.DOTALL`. -/
inductive Cm where
  | lit : Char → Cm
  | cls : Bool → List Char → Cm
  | anychar : Cm
deriving DecidableEq, Repr

/-- Whether a single character matches an atom. -/
def cmMatch : Cm → Char → Bool
  | .lit c, x => x.toLower = c
  | .cls neg cs, x => if cs.contains x then ¬ neg else neg
  | .anychar, _ => true

/-- One item of a compiled pattern: an atom, a greedy star, a lazy star,
a word boundary, or a capture-group delimiter. -/
inductive MItem where
  | one : Cm → MItem
  | starG : Cm → MItem
  | starL : Cm → MItem
  | wordB : MItem
  | gopen : MItem
  | gclose : MItem
deriving DecidableEq, Repr

/-- the Python `\w` word-character test used by `\b` (ASCII fragment,
sufficient for the HTML scanned here). -/
def isWordChar (c : Char) : Bool := c.isAlphanum || c = '_'

/-- Backtracking matcher: match `pat` against a prefix of `s`, with
`prev` the character before the current position, `ing` whether we are
inside the capture group, and `acc` the (reversed) capture so far.
Returns the capture on success.  Greedy stars try to consume first;
lazy stars try to skip first — the Python backtracking order.

Recursion is driven by a fuel counter so the function reduces in the
kernel; every recursive call decreases `(s.length, pat.length)`
lexicographically and `pat` never grows, so any fuel of at least
`(s.length + 1) * (pat.length + 1)` (supplied by `mrun`) is ample and
the out-of-fuel branch is unreachable. -/
def mrunF : Nat → List MItem → List Char → Option Char → Bool → List Char →
    Option (List Char)
  | 0, _, _, _, _, _ => none
  | _ + 1, [], _, _, _, acc => some acc.reverse
  | _ + 1, .one _ :: _, [], _, _, _ => none
  | fuel + 1, .one cm :: rest, c :: s', _, ing, acc =>
    if cmMatch cm c then
      mrunF fuel rest s' (some c) ing (if ing then c :: acc else acc)
    else none
  | fuel + 1, .starG _ :: rest, [], prev, ing, acc =>
    mrunF fuel rest [] prev ing acc
  | fuel + 1, .starG cm :: rest, c :: s', prev, ing, acc =>
    if cmMatch cm c then
      match mrunF fuel (.starG cm :: rest) s' (some c) ing
          (if ing then c :: acc else acc) with
      | some r => some r
      | none => mrunF fuel rest (c :: s') prev ing acc
    else mrunF fuel rest (c :: s') prev ing acc
  | fuel + 1, .starL cm :: rest, s, prev, ing, acc =>
    match mrunF fuel rest s prev ing acc with
    | some r => some r
    | none =>
      match s with
      | [] => none
      | c :: s' =>
        if cmMatch cm c then
          mrunF fuel (.starL cm :: rest) s' (some c) ing
            (if ing then c :: acc else acc)
        else none
  | fuel + 1, .wordB :: rest, s, prev, ing, acc =>
    let before := match prev with | some c => isWordChar c | none => false
    let after := match s with | c :: _ => isWordChar c | [] => false
    if before ≠ after then mrunF fuel rest s prev ing acc else none
  | fuel + 1, .gopen :: rest, s, prev, _, acc => mrunF fuel rest s prev true acc
  | fuel + 1, .gclose :: rest, s, prev, _, acc => mrunF fuel rest s prev false acc

/-- The matcher with ample fuel. -/
def mrun (pat : List MItem) (s : List Char) (prev : Option Char)
    (ing : Bool) (acc : List Char) : Option (List Char) :=
  mrunF ((s.length + 1) * (pat.length + 1)) pat s prev ing acc

/-- Model of `re.search`: try the pattern at every position, leftmost first,
tracking the preceding character for `\b`. -/
def researchAux (pat : List MItem) (prev : Option Char) (s : List Char) :
    Option (List Char) :=
  match mrun pat s prev false [] with
  | some r => some r
  | none =>
    match s with
    | [] => none
    | c :: s' => researchAux pat (some c) s'

/-- Model of `re.search` from the start of the string. -/
def research (pat : List MItem) (s : List Char) : Option (List Char) :=
  researchAux pat none s

/-- Compile a literal string to case-insensitive literal items. -/
def lits (s : String) : List MItem := s.data.map (fun c => .one (.lit c.toLower))

/-- The class `\s` (Python whitespace). -/
def wsCm : Cm := .cls false [' ', '\t', '\n', '\r', '\x0b', '\x0c']

/-- The class `["']`. -/
def quoteCm : Cm := .cls false ['"', '\'']

/-- The class `[^"']`. -/
def notQuoteCm : Cm := .cls true ['"', '\'']

/-- The class `[^>]`. -/
def notGtCm : Cm := .cls true ['>']

/-- Pattern `div_pattern` of `extract_download_link`:
`<div[^>]*\bclass\s*=\s*["'][^"']*\bdownload\b[^"']*["'][^>]*>(.*?)</div>`
with `IGNORECASE | DOTALL`. -/
def div_pattern : List MItem :=
  lits "<div" ++ [.starG notGtCm, .wordB] ++ lits "class" ++
  [.starG wsCm] ++ lits "=" ++ [.starG wsCm, .one quoteCm, .starG notQuoteCm,
    .wordB] ++ lits "download" ++ [.wordB, .starG notQuoteCm, .one quoteCm,
    .starG notGtCm] ++ lits ">" ++
  [.gopen, .starL .anychar, .gclose] ++ lits "</div>"

/-- Pattern `href_pattern` of `extract_download_link` (also
`extract_internal_links` of `scrape_openlibhum.py`):
`<a[^>]*\bhref\s*=\s*["']([^"']+)["']` with `IGNORECASE`. -/
def href_pattern : List MItem :=
  lits "<a" ++ [.starG notGtCm, .wordB] ++ lits "href" ++
  [.starG wsCm] ++ lits "=" ++ [.starG wsCm, .one quoteCm, .gopen,
    .one notQuoteCm, .starG notQuoteCm, .gclose, .one quoteCm]

/-- Model of `extract_download_link` from `scrape_repo.py` (lines 193-216): find a
`download`-classed `<div>`, then an `<a href="...">` inside it; return
the href or `None`. -/
def extract_download_link (html : String) : Option String :=
  match research div_pattern html.data with
  | none => none
  | some divContent =>
    match research href_pattern divContent with
    | none => none
    | some href => some (String.mk href)

/-!
## Repository adapter: failure counters and the trial loop
(`scrape_repo.py`, lines 55-104 and 311-459)
-/

/-- The process-local `_repo_failures` dict. -/
structure RepoState where
  failures : List (String × Nat)
deriving DecidableEq, Repr

/-- Model of `_repo_failures.get(repo_url, 0)` (`get_repo_failures`). -/
def get_repo_failures (st : RepoState) (repo_url : String) : Nat :=
  match st.failures.find? (fun p => p.1 = repo_url) with
  | some p => p.2
  | none => 0

/-- Model of `record_repo_failure` (lines 87-89). -/
def record_repo_failure (st : RepoState) (repo_url : String) : RepoState :=
  ⟨(repo_url, get_repo_failures st repo_url + 1) ::
    st.failures.filter (fun p => ¬ p.1 = repo_url)⟩

/-- Model of `is_repo_disabled` (lines 97-99). -/
def is_repo_disabled (st : RepoState) (repo_url : String) (max_failures : Nat) :
    Bool :=
  max_failures ≤ get_repo_failures st repo_url

/-- Model of `get_active_repos` (lines 102-104). -/
def get_active_repos (st : RepoState) (repos : List String)
    (max_failures : Nat) : List String :=
  repos.filter (fun r => ¬ is_repo_disabled st r max_failures)

/-- Model of `urlparse(u).scheme + "://" + urlparse(u).netloc`: split the URL on
the first `"://"` and keep the host part up to the next `/`. -/
def breakOnSchemeSep : List Char → Option (List Char × List Char)
  | [] => none
  | c :: rest =>
    if List.isPrefixOf (':' :: '/' :: '/' :: []) (c :: rest) then
      some ([], (c :: rest).drop 3)
    else
      match breakOnSchemeSep rest with
      | some (pre, post) => some (c :: pre, post)
      | none => none

/-- `server_url = f"{parsed_url.scheme}://{parsed_url.netloc}"`
(lines 368-369). -/
def server_url_of (repo_url : String) : String :=
  match breakOnSchemeSep repo_url.data with
  | none => "://"
  | some (scheme, rest) =>
    String.mk (scheme ++ (':' :: '/' :: '/' :: []) ++
      rest.takeWhile (fun c => c ≠ '/'))

/-- Network oracle for one repository trial: the landing-page fetch
result (`none` = non-200 or exception, mirroring
`fetch_landing_page` returning `(None, code)`), its status code, and
the response to the subsequent PDF GET. -/
structure RepoStep where
  landing : Option String
  landing_code : Int
  dl : Option HttpResp
deriving Repr

/-- The `for i, repo_url in enumerate(active_repos)` loop of
`process_one` in `scrape_repo.py` (lines 362-459), plus the final
all-failed UPDATE.  Returns the final failure counters, the log of
issued requests — each annotated with the repository failure count at
the moment the request is issued — and the status, article UPDATE and
persisted file. -/
def try_repos (orc : String → RepoStep) (attempts : Nat)
    (now rel_path : String) :
    RepoState → List String →
    RepoState × List (String × Nat) × String × Option Article ×
      Option (List Nat)
  | st, [] =>
    (st, [], "failed",
      some ⟨some "no-oa", none, attempts + 1, 0, some now, none⟩, none)
  | st, repo_url :: rest =>
    let step := orc repo_url
    let req₁ := (repo_url, get_repo_failures st repo_url)
    match step.landing with
    | none =>
      let st' := record_repo_failure st repo_url
      let r := try_repos orc attempts now rel_path st' rest
      (r.1, req₁ :: r.2.1, r.2.2)
    | some html =>
      match extract_download_link html with
      | none =>
        (st, [req₁], "no_download_link",
          some ⟨some "no-oa", none, attempts + 1, step.landing_code,
            some now, none⟩, none)
      | some download_href =>
        let pdf_url := server_url_of repo_url ++ download_href
        let d := download_pdf_direct step.dl
        let req₂ := (repo_url, get_repo_failures st repo_url)
        if d.success then
          (st, [req₁, req₂], "downloaded",
            some ⟨some "repo", some pdf_url, attempts + 1, d.code,
              some now, some rel_path⟩, d.file)
        else
          let st' := record_repo_failure st repo_url
          let r := try_repos orc attempts now rel_path st' rest
          (r.1, req₁ :: req₂ :: r.2.1, r.2.2)

/-- Model of `process_one` from `scrape_repo.py` (lines 311-459): configured repos
check, active filtering, candidate selection (`cand` is the stored
`attempts` of the selected no-oa candidate, `none` = no candidate),
dry-run gate, then the trial loop. -/
def process_one_repo (repos : List String) (max_repo_failures : Nat)
    (cand : Option Nat) (dry_run : Bool) (orc : String → RepoStep)
    (now rel_path : String) (st : RepoState) :
    RepoState × List (String × Nat) × String × Option Article ×
      Option (List Nat) :=
  if repos.isEmpty then (st, [], "none", none, none)
  else
    let active := get_active_repos st repos max_repo_failures
    if active.isEmpty then (st, [], "all_disabled", none, none)
    else
      match cand with
      | none => (st, [], "none", none, none)
      | some attempts =>
        if dry_run then (st, [], "skipped", none, none)
        else try_repos orc attempts now rel_path st active

/-- One invocation of `process_one` in the top-level loop of
`scrape_repo.py` `main`. -/
structure RepoCall where
  cand : Option Nat
  dry_run : Bool
  orc : String → RepoStep
  now : String
  rel_path : String

/-- The top-level loop of `scrape_repo.py` `main` (lines 521-556)
restricted to its repository-request behaviour: failure counters thread
through the run, starting from the empty (process-local) state. -/
def run_repo_calls (repos : List String) (max_repo_failures : Nat) :
    RepoState → List RepoCall → RepoState × List (String × Nat)
  | st, [] => (st, [])
  | st, call :: calls =>
    let r := process_one_repo repos max_repo_failures call.cand call.dry_run
      call.orc call.now call.rel_path st
    let rest := run_repo_calls repos max_repo_failures r.1 calls
    (rest.1, r.2.1 ++ rest.2)

/-!
## Startup path of `scrape_pdfs.py` `main` (lines 546-557)

`main` connects to the database, runs `ensure_schema` (which `ALTER
TABLE`s any of the six acquisition columns that are missing) and
`data_dir.mkdir(parents=True, exist_ok=True)` — all before the
processing loop and regardless of `--dry-run`.
-/

/-- The six acquisition columns added by `ensure_schema` (lines 93-107),
in source order. -/
def schema_cols : List String :=
  ["availability", "source", "attempts", "response", "timestamp", "file"]

/-- One `ALTER TABLE articles ADD COLUMN` attempt: appends the column
unless it already exists (the `sqlite3.OperationalError` branch). -/
def add_column (cols : List String) (c : String) : List String :=
  if cols.contains c then cols else cols ++ [c]

/-- Model of `ensure_schema`: try to add each acquisition column in turn. -/
def ensure_schema (cols : List String) : List String :=
  schema_cols.foldl add_column cols

/-- What the startup path of `main` does to durable state before the
loop: the schema after `ensure_schema`, and whether the data directory
was created.  The dry-run flag is not consulted on this path. -/
structure SetupResult where
  cols : List String
  data_dir_created : Bool
deriving DecidableEq, Repr

/-- Model of `main` from `scrape_pdfs.py`, lines 546-557: `ensure_schema` then
`data_dir.mkdir` run unconditionally (the `args.dry_run` flag is only
passed to `process_one` later). -/
def main_setup (_dry_run : Bool) (cols : List String) : SetupResult :=
  ⟨ensure_schema cols, true⟩

/-!
## Retry/backoff of the metadata harvester (`scrape_dois.py`, lines 25-106)
-/

/-- Constant `MAX_RETRIES = 5`. -/
def MAX_RETRIES : Nat := 5

/-- Constant `RETRY_BACKOFF = 2` (seconds, doubled on each retry). -/
def RETRY_BACKOFF : Nat := 2

/-- What one `requests.get` inside `_request_with_retry` yields: a
response with a non-429 status (returned), a 429 rate-limit response
carrying an optional integral `Retry-After` header, or a
`RequestException`. -/
inductive NetResp where
  | ok (status : Int)
  | rate (retry_after : Option Nat)
  | err
deriving DecidableEq, Repr

/-- How `_request_with_retry` ends. -/
inductive RetryOutcome where
  | success (status : Int)
  | exhausted
  | raised
deriving DecidableEq, Repr

/-- The `for attempt in range(1, MAX_RETRIES + 1)` loop of
`_request_with_retry`, with `k` the number of attempts still available
(so the current attempt is the last one when `k = 0` inside the body).
Returns the list of `time.sleep` waits performed, in order, and the
outcome: on 429 the wait is `int(resp.headers.get("Retry-After", delay))`
and `delay` doubles; on an exception the final attempt re-raises,
otherwise `delay` is slept and doubled; falling off the loop returns
`None` (`exhausted`). -/
def request_retry_loop (orc : Nat → NetResp) :
    Nat → Nat → Nat → List Nat × RetryOutcome
  | 0, _, _ => ([], .exhausted)
  | k + 1, attempt, delay =>
    match orc attempt with
    | .ok s => ([], .success s)
    | .rate ra =>
      let wait := ra.getD delay
      let r := request_retry_loop orc k (attempt + 1) (delay * 2)
      (wait :: r.1, r.2)
    | .err =>
      if k = 0 then ([], .raised)
      else
        let r := request_retry_loop orc k (attempt + 1) (delay * 2)
        (delay :: r.1, r.2)

/-- Model of `_request_with_retry` from `scrape_dois.py` (lines 85-106): attempts
numbered from 1, `delay` starting at `RETRY_BACKOFF`, at most
`MAX_RETRIES` attempts. -/
def request_with_retry (orc : Nat → NetResp) : List Nat × RetryOutcome :=
  request_retry_loop orc MAX_RETRIES 1 RETRY_BACKOFF

/-!
## Crawl adapter (`scrape_openlibhum.py`, `crawl_journal`, lines 255-425)

The loop is modelled with its fetch oracle `orc`: `orc url = none` is a
failed fetch (exception or non-200 — the code `continue`s), and
`orc url = some links` a 200 page whose extracted same-domain internal
links are `links` (an article page, which pushes nothing, is a page
with `links = []`; its download bookkeeping touches neither the visited
set nor the stack).  The `limit` / all-DOIs-downloaded break conditions
and an exhausted stack only stop the loop earlier, which the fuel
parameter accounts for.  The function returns the list of URLs
requested, in order.
-/

/-- The `link_priority` key of `crawl_journal` (lines 406-411). -/
def link_priority (link : String) : Nat :=
  if containsSub "/article/".data link.data then 0
  else if containsSub "/issue/".data link.data then 1
  else 2

/-- The depth-first loop of `crawl_journal` (lines 275-303 and 403-418):
pop a URL (the Python stack appends/pops at the end; here the head is
the top), skip it if already visited, otherwise mark it visited and
request it; on a non-article page push the unvisited extracted links
sorted by descending priority value (the Python stable
`sort(key=link_priority, reverse=True)`), so the best links are popped
first. -/
def crawl_journal (orc : String → Option (List String)) :
    Nat → List String → List String → List String
  | 0, _, _ => []
  | _ + 1, _, [] => []
  | fuel + 1, visited, url :: stack =>
    if url ∈ visited then crawl_journal orc fuel visited stack
    else
      let visited' := url :: visited
      match orc url with
      | none => url :: crawl_journal orc fuel visited' stack
      | some links =>
        let new_links := links.filter (fun l => ¬ l ∈ visited')
        let sorted := new_links.mergeSort
          (fun a b => decide (link_priority b ≤ link_priority a))
        url :: crawl_journal orc fuel visited' (sorted.reverse ++ stack)

/-! Proofs of the specified properties. -/

/-- Claim C1, corrected form: the Download Verifier accepts (returns
success and leaves the file on disk) iff the HTTP status is 200, the
declared content type is not an HTML type, the written size is **at
least** the 1000-byte floor, and the first five bytes are `%PDF-`.
On any failed check no file persists, and the reported code is: the
explicit HTTP code for a non-success status (and for the size check),
the synthetic 403 when the content-type or signature check fails
despite a 200 status, and 0 when no response was received. -/
theorem download_verifier_correct (resp : Option HttpResp) :
    download_pdf_direct resp = download_pdf resp ∧
    (((download_pdf resp).success = true ∧
        (download_pdf resp).file = resp.map HttpResp.body) ↔
      (∃ r, resp = some r ∧ r.status = 200 ∧ isHtmlType r = false ∧
        1000 ≤ r.body.length ∧ r.body.take 5 = pdfMagic)) ∧
    ((download_pdf resp).success = false → (download_pdf resp).file = none) ∧
    (resp = none → download_pdf resp = ⟨false, 0, none⟩) ∧
    (∀ r, resp = some r → r.status ≠ 200 →
      download_pdf resp = ⟨false, r.status, none⟩) ∧
    (∀ r, resp = some r → r.status = 200 → isHtmlType r = true →
      download_pdf resp = ⟨false, 403, none⟩) ∧
    (∀ r, resp = some r → r.status = 200 → isHtmlType r = false →
      r.body.length < 1000 → download_pdf resp = ⟨false, r.status, none⟩) ∧
    (∀ r, resp = some r → r.status = 200 → isHtmlType r = false →
      1000 ≤ r.body.length → r.body.take 5 ≠ pdfMagic →
      download_pdf resp = ⟨false, 403, none⟩) := by
  refine ⟨rfl, ?_⟩
  match resp with
  | none => simp [download_pdf, isHtmlType]
  | some r =>
    by_cases h1 : r.status = 200 <;>
      by_cases h2 : containsSub "html".data (lowerStr r.contentType) = true <;>
      by_cases h3 : r.body.length < 1000 <;>
      by_cases h4 : r.body.take 5 = pdfMagic <;>
      simp_all [download_pdf, isHtmlType] <;>
      first
        | omega
        | (rw [if_neg (show ¬ r.body.length < 1000 by omega)]; simp)

/-- Claim C1 counterexample: the verifier accepts a file of exactly 1000
bytes, whose size does not *exceed* the claimed 1000-byte floor: the
claimed acceptance condition (written size strictly greater than 1000)
is violated while the code accepts. -/
theorem download_verifier_boundary :
    (download_pdf (some respAtFloor)).success = true ∧
    (download_pdf (some respAtFloor)).file = some respAtFloor.body ∧
    ¬ 1000 < respAtFloor.body.length := by
  have hlen : respAtFloor.body.length = 1000 := by
    show (pdfMagic ++ List.replicate 995 0).length = 1000
    rw [List.length_append, List.length_replicate]
    rfl
  have htake : respAtFloor.body.take 5 = pdfMagic := by
    show (pdfMagic ++ List.replicate 995 0).take 5 = pdfMagic
    rw [show (5 : Nat) = pdfMagic.length from rfl, List.take_left]
  have hct : containsSub "html".data (lowerStr respAtFloor.contentType) = false := by
    decide
  have hmain : download_pdf (some respAtFloor) = ⟨true, 200, some respAtFloor.body⟩ := by
    simp [download_pdf, hct, htake, show respAtFloor.status = 200 from rfl,
      show ¬ respAtFloor.body.length < 1000 by omega]
  refine ⟨by rw [hmain], by rw [hmain], by omega⟩

theorem lookupPub_record_same (l : List (String × Int)) (p : String) (t : Int) :
    lookupPub ((p, t) :: l) p = some t := by
  simp [lookupPub]

theorem lookupPub_record_ne (l : List (String × Int)) (p q : String) (t : Int)
    (h : q ≠ p) : lookupPub ((q, t) :: l) p = lookupPub l p := by
  simp [lookupPub, h]

theorem check_politeness_true_elim {db : PoliteDB} {pub : String}
    {gInt pInt now : Int}
    (h : (check_politeness db pub gInt pInt now).1 = true) :
    (∀ t, db.lastGlobal = some t → gInt ≤ now - t) ∧
    (∀ t, lookupPub db.lastPub pub = some t → pInt ≤ now - t) := by
  constructor
  · intro t hg
    by_cases hlt : now - t < gInt
    · simp [check_politeness, hg, hlt] at h
    · omega
  · intro t hpu
    by_cases hlt : now - t < pInt
    · match hdb : db.lastGlobal with
      | none => simp [check_politeness, check_pub, hdb, hpu, hlt] at h
      | some tg =>
        by_cases hg : now - tg < gInt
        · simp [check_politeness, hdb, hg] at h
        · simp [check_politeness, check_pub, hdb, hg, hpu, hlt] at h
    · omega

/-- Every attempt the governor lets through for publisher `p` happens at
least `pInt` after the timestamp currently recorded for `p`. -/
theorem govRun_pub_lower_bound (gInt pInt : Int) (hp : 0 ≤ pInt) (p : String) :
    ∀ (evts : List (Int × String)) (db : PoliteDB) (t0 : Int),
      lookupPub db.lastPub p = some t0 →
      ∀ t, (t, p) ∈ govRun gInt pInt db evts → t0 + pInt ≤ t := by
  intro evts
  induction evts with
  | nil => intro db t0 _ t ht; rw [govRun] at ht; simp at ht
  | cons ev rest ih =>
    intro db t0 hdb t ht
    obtain ⟨now, q⟩ := ev
    rw [govRun] at ht
    by_cases hok : (check_politeness db q gInt pInt now).1 = true
    · rw [if_pos hok] at ht
      rcases List.mem_cons.1 ht with heq | hmem
      · injection heq with he1 he2
        subst he1; subst he2
        have := (check_politeness_true_elim hok).2 t0 hdb
        omega
      · by_cases hqp : q = p
        · subst hqp
          have hnow := (check_politeness_true_elim hok).2 t0 hdb
          have hrec : lookupPub (recordAttempt db q now).lastPub q = some now := by
            simp [recordAttempt, lookupPub_record_same]
          have := ih (recordAttempt db q now) now hrec t hmem
          omega
        · have hrec : lookupPub (recordAttempt db q now).lastPub p = some t0 := by
            simpa [recordAttempt, lookupPub_record_ne _ _ _ _ hqp] using hdb
          exact ih (recordAttempt db q now) t0 hrec t hmem
    · rw [if_neg hok] at ht
      exact ih db t0 hdb t ht

/-- Consecutive allowed attempts to the same publisher are at least
`pInt` apart, for any state and event sequence. -/
theorem govRun_no_close_pair (gInt pInt : Int) (hp : 0 ≤ pInt) :
    ∀ (evts : List (Int × String)) (db : PoliteDB)
      (l1 : List (Int × String)) (t1 : Int) (p : String)
      (l2 : List (Int × String)) (t2 : Int),
      govRun gInt pInt db evts = l1 ++ (t1, p) :: l2 →
      (t2, p) ∈ l2 → t1 + pInt ≤ t2 := by
  intro evts
  induction evts with
  | nil =>
    intro db l1 t1 p l2 t2 hrun _
    rw [govRun] at hrun
    simp at hrun
  | cons ev rest ih =>
    intro db l1 t1 p l2 t2 hrun hmem
    obtain ⟨now, q⟩ := ev
    rw [govRun] at hrun
    by_cases hok : (check_politeness db q gInt pInt now).1 = true
    · rw [if_pos hok] at hrun
      cases l1 with
      | nil =>
        rw [List.nil_append] at hrun
        injection hrun with h1 h2
        injection h1 with he1 he2
        subst he1; subst he2
        exact govRun_pub_lower_bound gInt pInt hp q rest
          (recordAttempt db q now) now
          (by simp [recordAttempt, lookupPub_record_same]) t2
          (by rw [h2]; exact hmem)
      | cons x l1' =>
        rw [List.cons_append] at hrun
        injection hrun with h1 h2
        exact ih (recordAttempt db q now) l1' t1 p l2 t2 h2 hmem
    · rw [if_neg hok] at hrun
      exact ih db l1 t1 p l2 t2 hrun hmem

/-- Claim C2: (a) `check_politeness` allows an attempt only if the elapsed
time since the last global attempt timestamp is at least the global
interval and the elapsed time since the last per-publisher attempt
timestamp is at least the publisher interval.  (b) Consequently, in any
run (any state, any candidate sequence), two attempts to the same
publisher that the governor lets through with no intervening attempt to
that publisher are at least the publisher interval apart. -/
theorem politeness_governor_spacing :
    (∀ (db : PoliteDB) (pub : String) (gInt pInt now : Int),
      (check_politeness db pub gInt pInt now).1 = true →
      (∀ t, db.lastGlobal = some t → gInt ≤ now - t) ∧
      (∀ t, lookupPub db.lastPub pub = some t → pInt ≤ now - t)) ∧
    (∀ (gInt pInt : Int), 0 ≤ pInt →
      ∀ (evts : List (Int × String)) (db : PoliteDB)
        (l1 : List (Int × String)) (t1 : Int) (p : String)
        (l2 : List (Int × String)) (t2 : Int),
        govRun gInt pInt db evts = l1 ++ (t1, p) :: l2 →
        (t2, p) ∈ l2 → t1 + pInt ≤ t2) :=
  ⟨fun _ _ _ _ _ h => check_politeness_true_elim h,
   fun gInt pInt hp => govRun_no_close_pair gInt pInt hp⟩

/-- Claim C2 witness: on the concrete trace with events at times 0, 5, 12
for publisher `"x"` and interval 10, the governor performs the attempts
at 0 and 12 (5 is blocked), and the theorem yields the spacing `0 + 10 ≤ 12`. -/
theorem politeness_governor_spacing_witness : (0 : Int) + 10 ≤ 12 :=
  politeness_governor_spacing.2 10 10 (by decide)
    [(0, "x"), (5, "x"), (12, "x")] ⟨none, []⟩ [] 0 "x" [(12, "x")] 12
    (by decide) (by decide)

/-- Every article UPDATE issued by the repository trial loop writes
`attempts + 1`, whatever the outcome. -/
theorem try_repos_update_attempts (orc : String → RepoStep) (attempts : Nat)
    (now rel_path : String) :
    ∀ (repos : List String) (st : RepoState) (a : Article),
      (try_repos orc attempts now rel_path st repos).2.2.2.1 = some a →
      a.attempts = attempts + 1 := by
  intro repos
  induction repos with
  | nil =>
    intro st a h
    rw [try_repos] at h
    injection h with h
    rw [← h]
  | cons repo_url rest ih =>
    intro st a h
    rw [try_repos] at h
    cases hl : (orc repo_url).landing with
    | none =>
      simp only [hl] at h
      exact ih _ a h
    | some html =>
      simp only [hl] at h
      cases he : extract_download_link html with
      | none =>
        simp only [he] at h
        injection h with h
        rw [← h]
      | some href =>
        simp only [he] at h
        cases hd : (download_pdf_direct (orc repo_url).dl).success with
        | true =>
          simp only [hd, if_true] at h
          injection h with h
          rw [← h]
        | false =>
          simp only [hd, Bool.false_eq_true, if_false] at h
          exact ih _ a h

/-- Claim C3: the `attempts` counter: each non-skipped attempt of either
adapter writes back exactly `attempts + 1` (so the stored counter never
decreases), and a politeness-disallowed or dry-run invocation performs
no UPDATE and writes no file. -/
theorem attempts_increment_exact :
    (∀ (attempts max_attempts : Nat) (politeOk dry_run : Bool)
       (mailto : Option String) (uwResp : Option (Int × UnpaywallJson))
       (dlResp : Option HttpResp) (now rel_path : String),
      (∀ a, (process_one (some attempts) max_attempts politeOk dry_run mailto
          uwResp dlResp now rel_path).2.1 = some a →
        a.attempts = attempts + 1) ∧
      (politeOk = false ∨ dry_run = true →
        (process_one (some attempts) max_attempts politeOk dry_run mailto
          uwResp dlResp now rel_path).2.1 = none ∧
        (process_one (some attempts) max_attempts politeOk dry_run mailto
          uwResp dlResp now rel_path).2.2 = none)) ∧
    (∀ (repos : List String) (max_repo_failures attempts : Nat)
       (dry_run : Bool) (orc : String → RepoStep) (now rel_path : String)
       (st : RepoState),
      (∀ a, (process_one_repo repos max_repo_failures (some attempts) dry_run
          orc now rel_path st).2.2.2.1 = some a →
        a.attempts = attempts + 1) ∧
      (dry_run = true →
        (process_one_repo repos max_repo_failures (some attempts) dry_run orc
          now rel_path st).2.2.2.1 = none ∧
        (process_one_repo repos max_repo_failures (some attempts) dry_run orc
          now rel_path st).2.2.2.2 = none)) := by
  constructor
  · intro attempts max_attempts politeOk dry_run mailto uwResp dlResp now rel_path
    constructor
    · intro a h
      by_cases hmax : max_attempts ≤ attempts
      · simp [process_one, hmax] at h
      · by_cases hpol : politeOk
        · by_cases hdry : dry_run
          · simp [process_one, hmax, hpol, hdry] at h
          · simp only [process_one, if_neg hmax, hpol, not_true, if_false,
              if_neg hdry] at h
            by_cases hoa : (query_unpaywall mailto uwResp).is_oa
            · simp only [hoa, not_true, if_false] at h
              cases hurl : (query_unpaywall mailto uwResp).pdf_url with
              | none =>
                simp only [hurl] at h
                injection h with h
                rw [← h]
              | some pdf_url =>
                simp only [hurl] at h
                cases hd : (download_pdf dlResp).success with
                | true =>
                  simp only [hd, if_true] at h
                  injection h with h
                  rw [← h]
                | false =>
                  simp only [hd, Bool.false_eq_true, if_false] at h
                  injection h with h
                  rw [← h]
            · simp only [hoa, not_false_iff, if_true] at h
              injection h with h
              rw [← h]
        · simp [process_one, hmax, hpol] at h
    · rintro (hpol | hdry)
      · subst hpol
        by_cases hmax : max_attempts ≤ attempts <;>
          simp [process_one, hmax]
      · subst hdry
        by_cases hmax : max_attempts ≤ attempts <;>
          by_cases hpol : politeOk <;>
          simp [process_one, hmax, hpol]
  · intro repos max_repo_failures attempts dry_run orc now rel_path st
    constructor
    · intro a h
      by_cases hemp : repos.isEmpty
      · simp [process_one_repo, hemp] at h
      · by_cases hact : (get_active_repos st repos max_repo_failures).isEmpty
        · simp [process_one_repo, hemp, hact] at h
        · by_cases hdry : dry_run
          · simp [process_one_repo, hemp, hact, hdry] at h
          · simp only [process_one_repo, hemp, Bool.false_eq_true, if_false,
              hact, if_neg hdry] at h
            exact try_repos_update_attempts orc attempts now rel_path _ st a h
    · intro hdry
      subst hdry
      by_cases hemp : repos.isEmpty <;>
        by_cases hact : (get_active_repos st repos max_repo_failures).isEmpty <;>
        simp [process_one_repo, hemp, hact]

/-- Claim C3 witness: concrete instantiation: a non-skipped no-oa attempt
at stored `attempts = 2` writes `attempts = 3`, and a dry-run call
mutates nothing. -/
theorem attempts_increment_exact_witness :
    (⟨some "no-oa", none, 3, 200, some "t", none⟩ : Article).attempts = 2 + 1 ∧
    (process_one (some 2) 5 true true none none none "t" "p").2.1 = none :=
  ⟨(attempts_increment_exact.1 2 5 true false (some "m")
      (some (200, ⟨false, none, []⟩)) none "t" "p").1 _ (by decide),
   ((attempts_increment_exact.1 2 5 true true none none none "t" "p").2
      (Or.inr rfl)).1⟩

/-- Claim C4: if the first repository whose landing page is actually
fetched (all earlier ones failed to return a page) yields HTML with no
`download`-classed container holding a link, the trial loop returns
`no_download_link` at once with the record updated to
`availability="no-oa"`, `attempts+1`, `source=NULL`, `file=NULL` and the
landing page status code — and the only repositories contacted are the
failed ones plus this one: none of the remaining configured
repositories is requested, whatever they are. -/
theorem no_download_container_terminal
    (orc : String → RepoStep) (attempts : Nat) (now rel_path : String) :
    ∀ (repos₁ : List String) (st : RepoState) (repo_url : String)
      (repos₂ : List String) (html : String),
      (∀ r ∈ repos₁, (orc r).landing = none) →
      (orc repo_url).landing = some html →
      extract_download_link html = none →
      (try_repos orc attempts now rel_path st
          (repos₁ ++ repo_url :: repos₂)).2.2.1 = "no_download_link" ∧
      (try_repos orc attempts now rel_path st
          (repos₁ ++ repo_url :: repos₂)).2.2.2.1 =
        some ⟨some "no-oa", none, attempts + 1, (orc repo_url).landing_code,
          some now, none⟩ ∧
      (try_repos orc attempts now rel_path st
          (repos₁ ++ repo_url :: repos₂)).2.1.map Prod.fst =
        repos₁ ++ [repo_url] := by
  intro repos₁
  induction repos₁ with
  | nil =>
    intro st repo_url repos₂ html _ hl he
    rw [List.nil_append, try_repos]
    simp [hl, he]
  | cons r₀ rest ih =>
    intro st repo_url repos₂ html hfail hl he
    have hr₀ : (orc r₀).landing = none := hfail r₀ (List.mem_cons_self r₀ rest)
    have hrest : ∀ r ∈ rest, (orc r).landing = none :=
      fun r hr => hfail r (List.mem_cons_of_mem r₀ hr)
    rw [List.cons_append, try_repos]
    simp only [hr₀]
    obtain ⟨h1, h2, h3⟩ := ih (record_repo_failure st r₀) repo_url repos₂ html
      hrest hl he
    exact ⟨h1, h2, by simp only [List.map_cons, h3, List.cons_append]⟩

/-- Claim C4 witness: one repository whose landing page has no download
container: the loop stops with the no-oa record and only that
repository was contacted. -/
theorem no_download_container_terminal_witness :
    (try_repos (fun _ => ⟨some "<p>x</p>", 200, none⟩) 0 "t" "p" ⟨[]⟩
        ([] ++ "https://r1/" :: ["https://r2/"])).2.2.1 =
      "no_download_link" ∧
    (try_repos (fun _ => ⟨some "<p>x</p>", 200, none⟩) 0 "t" "p" ⟨[]⟩
        ([] ++ "https://r1/" :: ["https://r2/"])).2.2.2.1 =
      some ⟨some "no-oa", none, 0 + 1, 200, some "t", none⟩ ∧
    (try_repos (fun _ => ⟨some "<p>x</p>", 200, none⟩) 0 "t" "p" ⟨[]⟩
        ([] ++ "https://r1/" :: ["https://r2/"])).2.1.map
      Prod.fst = [] ++ ["https://r1/"] :=
  no_download_container_terminal (fun _ => ⟨some "<p>x</p>", 200, none⟩)
    0 "t" "p" [] ⟨[]⟩ "https://r1/" ["https://r2/"] "<p>x</p>"
    (fun r hr => absurd hr (List.not_mem_nil r)) rfl (by decide)

/-- Claim C5, the scenario: a candidate with stored `attempts = 0` (so
`availability=NULL, file=NULL` satisfied the selector), a configured
`mailto`, a positive attempts ceiling, the politeness gate open and
dry-run off.  If the Unpaywall lookup returns `is_oa = false` at status
`code`, the call returns `"no-oa"` and the single UPDATE writes exactly
`availability="no-oa", source=NULL, attempts=1, response=code,
timestamp=now, file=NULL`; nothing is written to disk. -/
theorem no_oa_scenario_record (max_attempts : Nat) (m : String)
    (code : Int) (data : UnpaywallJson) (dlResp : Option HttpResp)
    (now rel_path : String)
    (hmax : 0 < max_attempts) (hoa : data.is_oa = false) :
    process_one (some 0) max_attempts true false (some m)
        (some (code, data)) dlResp now rel_path =
      ("no-oa", some ⟨some "no-oa", none, 1, code, some now, none⟩, none) := by
  have hq : query_unpaywall (some m) (some (code, data)) =
      ⟨false, none, none, code⟩ := by
    by_cases h404 : code = 404
    · simp [query_unpaywall, h404]
    · by_cases h200 : code = 200
      · simp [query_unpaywall, h404, h200, hoa]
      · simp [query_unpaywall, h404, h200]
  simp [process_one, Nat.not_le.mpr hmax, hq]

/-- Claim C5 witness, a concrete instance: ceiling 3, Unpaywall answers
200 with `is_oa=false`. -/
theorem no_oa_scenario_record_witness :
    process_one (some 0) 3 true false (some "m")
        (some (200, ⟨false, none, []⟩)) none "2024-01-01T00:00:00" "p" =
      ("no-oa", some ⟨some "no-oa", none, 1, 200,
        some "2024-01-01T00:00:00", none⟩, none) :=
  no_oa_scenario_record 3 "m" 200 ⟨false, none, []⟩ none
    "2024-01-01T00:00:00" "p" (by decide) rfl

/-- Claim C6, corrected form: the attempts ceiling is enforced by the
open-access adapter: when the stored `attempts` has reached
`max_attempts`, `process_one` of `scrape_pdfs.py` returns `"exhausted"`
with no UPDATE, no file written, and no fetch attempted.  (The
repository and crawl adapters perform no such check — see the
counterexample.) -/
theorem attempt_ceiling_exhausts_pdfs (attempts max_attempts : Nat)
    (politeOk dry_run : Bool) (mailto : Option String)
    (uwResp : Option (Int × UnpaywallJson)) (dlResp : Option HttpResp)
    (now rel_path : String) (hmax : max_attempts ≤ attempts) :
    process_one (some attempts) max_attempts politeOk dry_run mailto uwResp
        dlResp now rel_path = ("exhausted", none, none) := by
  simp [process_one, hmax]

/-- Claim C6 witness: an article at the (default) ceiling 3 is classified
exhausted and untouched. -/
theorem attempt_ceiling_exhausts_pdfs_witness :
    process_one (some 3) 3 true false (some "m") none none "t" "p" =
      ("exhausted", none, none) :=
  attempt_ceiling_exhausts_pdfs 3 3 true false (some "m") none none "t" "p"
    (by decide)

/-- Claim C6 counterexample: the repository adapter ignores the attempts
ceiling: a candidate whose stored `attempts = 1000` (beyond any
configured ceiling, e.g. the open-access adapter 3) is still
processed — its landing page is requested (the request log is
non-empty) and its record is updated with `attempts = 1001` — instead
of being skipped as exhausted. -/
theorem repo_adapter_ignores_ceiling :
    (process_one_repo ["https://r1/"] 10 (some 1000) false
        (fun _ => ⟨some "<p>x</p>", 200, none⟩) "t" "p" ⟨[]⟩).2.1 =
      [("https://r1/", 0)] ∧
    (process_one_repo ["https://r1/"] 10 (some 1000) false
        (fun _ => ⟨some "<p>x</p>", 200, none⟩) "t" "p" ⟨[]⟩).2.2.2.1 =
      some ⟨some "no-oa", none, 1001, 200, some "t", none⟩ := by
  constructor
  · decide
  · decide

theorem add_column_length_le (cols : List String) (c : String) :
    cols.length ≤ (add_column cols c).length := by
  unfold add_column
  split <;> simp

theorem foldl_add_column_length_le (l : List String) :
    ∀ cols : List String, cols.length ≤ (l.foldl add_column cols).length := by
  induction l with
  | nil => intro cols; simp
  | cons c rest ih =>
    intro cols
    exact le_trans (add_column_length_le cols c) (ih _)

/-- Claim C7 counterexample: a dry run on a database whose `articles`
table lacks the acquisition columns still changes the schema (the
columns are added) and still creates the data directory on disk. -/
theorem dry_run_setup_still_mutates :
    (main_setup true ["doi", "title"]).cols ≠ ["doi", "title"] ∧
    (main_setup true ["doi", "title"]).data_dir_created = true := by
  constructor
  · decide
  · decide

/-- Claim C7, corrected form: in dry-run mode the processing loop of
either adapter performs no UPDATE of acquisition fields, issues no
repository request, and persists no file; but the startup path still
runs `ensure_schema` (so a missing column is added — the schema
changes) and still creates the data directory, dry-run or not. -/
theorem dry_run_frame :
    (∀ (cand : Option Nat) (max_attempts : Nat) (politeOk : Bool)
       (mailto : Option String) (uwResp : Option (Int × UnpaywallJson))
       (dlResp : Option HttpResp) (now rel_path : String),
      (process_one cand max_attempts politeOk true mailto uwResp dlResp now
        rel_path).2.1 = none ∧
      (process_one cand max_attempts politeOk true mailto uwResp dlResp now
        rel_path).2.2 = none) ∧
    (∀ (repos : List String) (max_repo_failures : Nat) (cand : Option Nat)
       (orc : String → RepoStep) (now rel_path : String) (st : RepoState),
      (process_one_repo repos max_repo_failures cand true orc now rel_path
        st).1 = st ∧
      (process_one_repo repos max_repo_failures cand true orc now rel_path
        st).2.1 = [] ∧
      (process_one_repo repos max_repo_failures cand true orc now rel_path
        st).2.2.2.1 = none ∧
      (process_one_repo repos max_repo_failures cand true orc now rel_path
        st).2.2.2.2 = none) ∧
    (∀ cols : List String, ¬ "availability" ∈ cols →
      (main_setup true cols).cols ≠ cols ∧
      (main_setup true cols).data_dir_created = true) := by
  refine ⟨?_, ?_, ?_⟩
  · intro cand max_attempts politeOk mailto uwResp dlResp now rel_path
    match cand with
    | none => exact ⟨rfl, rfl⟩
    | some attempts =>
      by_cases hmax : max_attempts ≤ attempts <;>
        by_cases hpol : politeOk <;>
        simp [process_one, hmax, hpol]
  · intro repos max_repo_failures cand orc now rel_path st
    by_cases hemp : repos.isEmpty <;>
      by_cases hact : (get_active_repos st repos max_repo_failures).isEmpty <;>
      match cand with
      | none => simp [process_one_repo, hemp, hact]
      | some attempts => simp [process_one_repo, hemp, hact]
  · intro cols hmem
    refine ⟨?_, rfl⟩
    intro heq
    have hgrow : (add_column cols "availability").length = cols.length + 1 := by
      unfold add_column
      rw [if_neg (by simpa using hmem)]
      simp
    have h1 : cols.length + 1 ≤ (ensure_schema cols).length := by
      calc cols.length + 1 = (add_column cols "availability").length := hgrow.symm
        _ ≤ _ := foldl_add_column_length_le
          ["source", "attempts", "response", "timestamp", "file"] _
    have h2 : (main_setup true cols).cols = ensure_schema cols := rfl
    have h3 : ensure_schema cols = cols := by rw [← h2, heq]
    rw [h3] at h1
    omega

/-- Claim C7 witness: concrete instance of the corrected claimed third
part: on a schema lacking `availability`, dry-run startup changes it. -/
theorem dry_run_frame_witness :
    (main_setup true ["doi"]).cols ≠ ["doi"] ∧
    (main_setup true ["doi"]).data_dir_created = true :=
  dry_run_frame.2.2 ["doi"] (by decide)

theorem request_retry_loop_waits (orc : Nat → NetResp) :
    ∀ (k attempt delay : Nat),
      (request_retry_loop orc k attempt delay).1.length ≤ k ∧
      ∀ i, i < (request_retry_loop orc k attempt delay).1.length →
        (request_retry_loop orc k attempt delay).1.getD i 0 =
          match orc (attempt + i) with
          | .rate (some w) => w
          | _ => delay * 2 ^ i := by
  intro k
  induction k with
  | zero =>
    intro attempt delay
    refine ⟨by simp [request_retry_loop], ?_⟩
    intro i hi
    simp [request_retry_loop] at hi
  | succ k ih =>
    intro attempt delay
    rw [request_retry_loop]
    cases ho : orc attempt with
    | ok s => exact ⟨by simp, by intro i hi; simp at hi⟩
    | rate ra =>
      simp only
      constructor
      · have := (ih (attempt + 1) (delay * 2)).1
        simpa using Nat.succ_le_succ this
      · intro i hi
        match i with
        | 0 =>
          simp only [List.getD_cons_zero, Nat.add_zero, ho]
          match ra with
          | some w => rfl
          | none => simp [Option.getD, pow_zero, Nat.mul_one]
        | i + 1 =>
          simp only [List.getD_cons_succ]
          have hlen : i < (request_retry_loop orc k (attempt + 1)
              (delay * 2)).1.length := by
            simpa using Nat.lt_of_succ_lt_succ hi
          have := (ih (attempt + 1) (delay * 2)).2 i hlen
          rw [this]
          have harg : attempt + 1 + i = attempt + (i + 1) := by omega
          rw [harg]
          cases orc (attempt + (i + 1)) with
          | ok s => rw [pow_succ]; ring_nf
          | err => rw [pow_succ]; ring_nf
          | rate ra' =>
            cases ra' with
            | some w => rfl
            | none => simp only; rw [pow_succ]; ring_nf
    | err =>
      by_cases hk : k = 0
      · subst hk
        simp only [if_pos rfl]
        exact ⟨by simp, by intro i hi; simp at hi⟩
      · simp only [if_neg hk]
        constructor
        · have := (ih (attempt + 1) (delay * 2)).1
          simpa using Nat.succ_le_succ this
        · intro i hi
          match i with
          | 0 => simp [List.getD_cons_zero, ho]
          | i + 1 =>
            simp only [List.getD_cons_succ]
            have hlen : i < (request_retry_loop orc k (attempt + 1)
                (delay * 2)).1.length := by
              simpa using Nat.lt_of_succ_lt_succ hi
            have := (ih (attempt + 1) (delay * 2)).2 i hlen
            rw [this]
            have harg : attempt + 1 + i = attempt + (i + 1) := by omega
            rw [harg]
            cases orc (attempt + (i + 1)) with
            | ok s => rw [pow_succ]; ring_nf
            | err => rw [pow_succ]; ring_nf
            | rate ra' =>
              cases ra' with
              | some w => rfl
              | none => simp only; rw [pow_succ]; ring_nf

/-- Claim C8: for any sequence of responses, `_request_with_retry` makes
at most `MAX_RETRIES` attempts, and the `i`-th wait it sleeps (0-based,
one per non-final attempt) equals the server-advised `Retry-After` when
the response at that attempt carries one, and otherwise the computed
backoff `RETRY_BACKOFF * 2 ^ i` — the base doubled on each consecutive
retry. -/
theorem rate_limit_backoff_doubles (orc : Nat → NetResp) :
    (request_with_retry orc).1.length ≤ MAX_RETRIES ∧
    ∀ i, i < (request_with_retry orc).1.length →
      (request_with_retry orc).1.getD i 0 =
        match orc (1 + i) with
        | .rate (some w) => w
        | _ => RETRY_BACKOFF * 2 ^ i :=
  request_retry_loop_waits orc MAX_RETRIES 1 RETRY_BACKOFF

/-- Claim C8 witness, a concrete run: attempt 1 is rate-limited with no
`Retry-After` (sleeps the base 2), attempt 2 is rate-limited with
`Retry-After: 99` (the advised wait takes precedence over the doubled
backoff 4), attempt 3 succeeds. -/
theorem rate_limit_backoff_doubles_witness :
    (request_with_retry (fun j => if j = 1 then .rate none
        else if j = 2 then .rate (some 99) else .ok 200)).1.getD 0 0 = 2 ∧
    (request_with_retry (fun j => if j = 1 then .rate none
        else if j = 2 then .rate (some 99) else .ok 200)).1.getD 1 0 = 99 := by
  constructor
  · have h := (rate_limit_backoff_doubles (fun j => if j = 1 then .rate none
      else if j = 2 then .rate (some 99) else .ok 200)).2 0 (by decide)
    simpa using h
  · have h := (rate_limit_backoff_doubles (fun j => if j = 1 then .rate none
      else if j = 2 then .rate (some 99) else .ok 200)).2 1 (by decide)
    simpa using h

theorem find_filter_ne (r r0 : String) (h : r ≠ r0) :
    ∀ l : List (String × Nat),
      (l.filter (fun p => ¬ p.1 = r0)).find? (fun p => p.1 = r) =
        l.find? (fun p => p.1 = r) := by
  intro l
  induction l with
  | nil => rfl
  | cons q rest ih =>
    by_cases hq : q.1 = r0
    · have h1 : (q :: rest).filter (fun p => ¬ p.1 = r0) =
          rest.filter (fun p => ¬ p.1 = r0) := by
        rw [List.filter_cons, if_neg (by simp [hq])]
      have hqr : q.1 ≠ r := by
        rw [hq]
        exact fun hc => h hc.symm
      have h2 : (q :: rest).find? (fun p => p.1 = r) =
          rest.find? (fun p => p.1 = r) := by
        rw [List.find?_cons, decide_eq_false hqr]
      rw [h1, h2, ih]
    · have h1 : (q :: rest).filter (fun p => ¬ p.1 = r0) =
          q :: rest.filter (fun p => ¬ p.1 = r0) := by
        rw [List.filter_cons, if_pos (by simp [hq])]
      rw [h1]
      by_cases hqr : q.1 = r
      · rw [List.find?_cons, List.find?_cons, decide_eq_true hqr]
      · rw [List.find?_cons, List.find?_cons, decide_eq_false hqr]
        exact ih

/-- Recording a failure for one repository leaves every other
repository counter unchanged. -/
theorem get_repo_failures_record_ne (st : RepoState) (r r0 : String)
    (h : r ≠ r0) :
    get_repo_failures (record_repo_failure st r0) r =
      get_repo_failures st r := by
  have hne : ((r0, get_repo_failures st r0 + 1) : String × Nat).1 ≠ r :=
    fun hc => h hc.symm
  have hfind : (record_repo_failure st r0).failures.find?
      (fun p => p.1 = r) = st.failures.find? (fun p => p.1 = r) := by
    show (((r0, get_repo_failures st r0 + 1) ::
        st.failures.filter (fun p => ¬ p.1 = r0)).find?
        (fun p => p.1 = r)) = _
    rw [List.find?_cons, decide_eq_false hne]
    exact find_filter_ne r r0 h st.failures
  unfold get_repo_failures
  rw [hfind]

/-- Recording a failure increments that repository counter by one. -/
theorem get_repo_failures_record_same (st : RepoState) (r : String) :
    get_repo_failures (record_repo_failure st r) r =
      get_repo_failures st r + 1 := by
  have hfind : (record_repo_failure st r).failures.find?
      (fun p => p.1 = r) = some (r, get_repo_failures st r + 1) := by
    show (((r, get_repo_failures st r + 1) ::
        st.failures.filter (fun p => ¬ p.1 = r)).find?
        (fun p => p.1 = r)) = _
    rw [List.find?_cons, decide_eq_true (show ((r, get_repo_failures st r + 1) :
      String × Nat).1 = r from rfl)]
  show (match (record_repo_failure st r).failures.find?
      (fun p => p.1 = r) with
    | some p => p.2
    | none => 0) = get_repo_failures st r + 1
  rw [hfind]

/-- Within one trial loop over pairwise-distinct repositories none of
which is disabled at entry, every issued request carries a failure
count below the ceiling. -/
theorem try_repos_requests_below (orc : String → RepoStep) (attempts : Nat)
    (now rel_path : String) (max_failures : Nat) :
    ∀ (repos : List String) (st : RepoState),
      repos.Nodup →
      (∀ r ∈ repos, get_repo_failures st r < max_failures) →
      ∀ p ∈ (try_repos orc attempts now rel_path st repos).2.1,
        p.2 < max_failures := by
  intro repos
  induction repos with
  | nil =>
    intro st _ _ p hp
    rw [try_repos] at hp
    simp at hp
  | cons repo_url rest ih =>
    intro st hnd hbelow p hp
    have hhead : get_repo_failures st repo_url < max_failures :=
      hbelow repo_url (List.mem_cons_self _ _)
    have hnotin : repo_url ∉ rest := (List.nodup_cons.1 hnd).1
    have hndr : rest.Nodup := (List.nodup_cons.1 hnd).2
    have hbelow' : ∀ r ∈ rest,
        get_repo_failures (record_repo_failure st repo_url) r <
          max_failures := by
      intro r hr
      have hne : r ≠ repo_url := fun hc => hnotin (hc ▸ hr)
      rw [get_repo_failures_record_ne st r repo_url hne]
      exact hbelow r (List.mem_cons_of_mem _ hr)
    rw [try_repos] at hp
    cases hl : (orc repo_url).landing with
    | none =>
      simp only [hl] at hp
      rcases List.mem_cons.1 hp with rfl | hp'
      · exact hhead
      · exact ih _ hndr hbelow' p hp'
    | some html =>
      simp only [hl] at hp
      cases he : extract_download_link html with
      | none =>
        simp only [he] at hp
        rcases List.mem_cons.1 hp with rfl | hp'
        · exact hhead
        · simp at hp'
      | some href =>
        simp only [he] at hp
        cases hd : (download_pdf_direct (orc repo_url).dl).success with
        | true =>
          simp only [hd, if_true] at hp
          rcases List.mem_cons.1 hp with rfl | hp'
          · exact hhead
          · rcases List.mem_cons.1 hp' with rfl | hp''
            · exact hhead
            · simp at hp''
        | false =>
          simp only [hd, Bool.false_eq_true, if_false] at hp
          rcases List.mem_cons.1 hp with rfl | hp'
          · exact hhead
          · rcases List.mem_cons.1 hp' with rfl | hp''
            · exact hhead
            · exact ih _ hndr hbelow' p hp''

/-- One `process_one` call over distinct configured repositories only
requests repositories whose failure count is below the ceiling. -/
theorem process_one_repo_requests_below (repos : List String)
    (max_repo_failures : Nat) (cand : Option Nat) (dry_run : Bool)
    (orc : String → RepoStep) (now rel_path : String) (st : RepoState)
    (hnd : repos.Nodup) :
    ∀ p ∈ (process_one_repo repos max_repo_failures cand dry_run orc now
        rel_path st).2.1, p.2 < max_repo_failures := by
  intro p hp
  unfold process_one_repo at hp
  by_cases hemp : repos.isEmpty
  · simp [hemp] at hp
  · simp only [hemp, Bool.false_eq_true, if_false] at hp
    by_cases hact : (get_active_repos st repos max_repo_failures).isEmpty
    · simp [hact] at hp
    · simp only [hact, Bool.false_eq_true, if_false] at hp
      match cand with
      | none => simp at hp
      | some attempts =>
        by_cases hdry : dry_run
        · simp [hdry] at hp
        · simp only [hdry, Bool.false_eq_true, if_false] at hp
          refine try_repos_requests_below orc attempts now rel_path
            max_repo_failures _ st ?_ ?_ p hp
          · exact List.Nodup.filter _ hnd
          · intro r hr
            have := List.of_mem_filter hr
            simp only [is_repo_disabled, decide_eq_true_eq] at this
            omega

/-- Claim C9: (a) a repository whose failure counter has reached the
ceiling is excluded from the active set, and `record_repo_failure`
increments exactly its origin counter.  (b) Across a whole run (any
sequence of `process_one` calls, counters starting from the empty
process-local state), every request ever issued to an origin happens
while that origin failure count is below the ceiling — once the
counter reaches the ceiling, no further request targets that origin. -/
theorem origin_failure_ceiling :
    (∀ (st : RepoState) (repos : List String) (r : String)
       (max_failures : Nat),
      is_repo_disabled st r max_failures = true →
      r ∉ get_active_repos st repos max_failures) ∧
    (∀ (st : RepoState) (r : String),
      get_repo_failures (record_repo_failure st r) r =
        get_repo_failures st r + 1) ∧
    (∀ (repos : List String) (max_failures : Nat), repos.Nodup →
      ∀ (calls : List RepoCall) (p : String × Nat),
        p ∈ (run_repo_calls repos max_failures ⟨[]⟩ calls).2 →
        p.2 < max_failures) := by
  refine ⟨?_, get_repo_failures_record_same, ?_⟩
  · intro st repos r max_failures hdis hmem
    have := List.of_mem_filter hmem
    simp [hdis] at this
  · intro repos max_failures hnd calls
    suffices h : ∀ (st : RepoState) (p : String × Nat),
        p ∈ (run_repo_calls repos max_failures st calls).2 →
        p.2 < max_failures from fun p hp => h ⟨[]⟩ p hp
    induction calls with
    | nil =>
      intro st p hp
      rw [run_repo_calls] at hp
      simp at hp
    | cons call rest ih =>
      intro st p hp
      rw [run_repo_calls] at hp
      rcases List.mem_append.1 hp with hp' | hp'
      · exact process_one_repo_requests_below repos max_failures call.cand
          call.dry_run call.orc call.now call.rel_path st hnd p hp'
      · exact ih _ p hp'

/-- Claim C9 witness: two distinct repositories, ceiling 1, one call in
which both landing fetches fail: the issued requests carry failure
counts 0 and 0, both below the ceiling. -/
theorem origin_failure_ceiling_witness : (0 : Nat) < 1 :=
  origin_failure_ceiling.2.2 ["https://a/", "https://b/"] 1 (by decide)
    [⟨some 0, false, fun _ => ⟨none, 403, none⟩, "t", "p"⟩]
    ("https://a/", 0) (by decide)

/-- Claim C10: within one run of the crawl adapter, every URL is
requested at most once: the log of requested URLs has no duplicates
(and never revisits anything already in the visited set), for any fetch
oracle, any starting stack and visited set, and however long the loop
runs. -/
theorem crawl_fetches_each_url_once (orc : String → Option (List String)) :
    ∀ (fuel : Nat) (visited stack : List String),
      (crawl_journal orc fuel visited stack).Nodup ∧
      ∀ u ∈ crawl_journal orc fuel visited stack, u ∉ visited := by
  intro fuel
  induction fuel with
  | zero =>
    intro visited stack
    constructor
    · rw [crawl_journal]; exact List.nodup_nil
    · intro u hu; rw [crawl_journal] at hu; simp at hu
  | succ fuel ih =>
    intro visited stack
    match stack with
    | [] =>
      constructor
      · rw [crawl_journal]; exact List.nodup_nil
      · intro u hu; rw [crawl_journal] at hu; simp at hu
    | url :: stack =>
      rw [crawl_journal]
      by_cases hv : url ∈ visited
      · rw [if_pos hv]
        exact ih visited stack
      · rw [if_neg hv]
        cases ho : orc url with
        | none =>
          simp only
          obtain ⟨hnd, hnv⟩ := ih (url :: visited) stack
          constructor
          · exact List.nodup_cons.2
              ⟨fun hc => (hnv url hc) (List.mem_cons_self _ _), hnd⟩
          · intro u hu
            rcases List.mem_cons.1 hu with rfl | hu'
            · exact hv
            · exact fun hc => (hnv u hu') (List.mem_cons_of_mem _ hc)
        | some links =>
          simp only
          obtain ⟨hnd, hnv⟩ := ih (url :: visited)
            (((links.filter (fun l => ¬ l ∈ url :: visited)).mergeSort
              (fun a b => decide (link_priority b ≤ link_priority a))).reverse
              ++ stack)
          constructor
          · exact List.nodup_cons.2
              ⟨fun hc => (hnv url hc) (List.mem_cons_self _ _), hnd⟩
          · intro u hu
            rcases List.mem_cons.1 hu with rfl | hu'
            · exact hv
            · exact fun hc => (hnv u hu') (List.mem_cons_of_mem _ hc)

end Linglitter
